import Mathlib

/-!
Shallow embedding of the persistence layer of the 10x-healthy-meal
repository: the recipe store (src/lib/services/recipe.service.ts), the
dietary-preferences store (DietaryPreferencesService), the database schema
constraints (supabase/migrations/20251013120000_initial_schema.sql), the
stored procedure create_dietary_preferences, and the request-validation
schemas (src/lib/validation).

Identifiers are Nat (opaque ids), timestamps are Nat, strings are Lean
String.  The relational store is a record of row lists; every service
method is a pure function from a store state to a typed outcome plus the
resulting state.  Store failures of the non-transactional replace branch of
the preferences upsert are modelled by an explicit failure-injection
parameter naming the step whose underlying call fails.
-/

/-- Diet type enum from the migration (vegan | vegetarian | none). -/
inductive DietType
  | vegan
  | vegetarian
  | nodiet
deriving DecidableEq, Repr

/-- Row of the recipes table (migration lines 51-63). -/
structure RecipeRow where
  id : Nat
  user_id : Nat
  title : String
  content : String
  update_counter : Nat
  created_at : Nat
  updated_at : Nat
  deleted_at : Option Nat
deriving DecidableEq, Repr

/-- Row of the dietary_preferences table. -/
structure PrefRow where
  id : Nat
  user_id : Nat
  diet_type : DietType
  version : Nat
  created_at : Nat
  updated_at : Nat
deriving DecidableEq, Repr

/-- Row of the forbidden_ingredients table. -/
structure FIRow where
  id : Nat
  dietary_preferences_id : Nat
  ingredient_name : String
deriving DecidableEq, Repr

/-- The relational store: the three tables of the initial schema. -/
structure DB where
  recipes : List RecipeRow := []
  prefs : List PrefRow := []
  fis : List FIRow := []
deriving DecidableEq, Repr

/-- Typed service outcome kinds: the sentinel error strings thrown by the
services (NOT_FOUND, DUPLICATE_TITLE) and any other storage failure. -/
inductive SvcError
  | notFound
  | duplicateTitle
  | storageError
deriving DecidableEq, Repr

instance exceptDecidableEq {ε α : Type} [DecidableEq ε] [DecidableEq α] :
    DecidableEq (Except ε α) := fun a b =>
  match a, b with
  | .ok x, .ok y =>
      if h : x = y then .isTrue (h ▸ rfl)
      else .isFalse (fun hh => h (Except.ok.inj hh))
  | .error x, .error y =>
      if h : x = y then .isTrue (h ▸ rfl)
      else .isFalse (fun hh => h (Except.error.inj hh))
  | .ok _, .error _ => .isFalse (fun hh => Except.noConfusion hh)
  | .error _, .ok _ => .isFalse (fun hh => Except.noConfusion hh)

/-- UpdateDietaryPreferencesCommand from src/types. -/
structure UpdateDietaryPreferencesCommand where
  diet_type : DietType
  forbidden_ingredients : List String
deriving DecidableEq, Repr

/-- DietaryPreferencesDTO returned by the preferences service. -/
structure DietaryPreferencesDTO where
  id : Nat
  diet_type : DietType
  forbidden_ingredients : List String
  version : Nat
  created_at : Nat
  updated_at : Nat
deriving DecidableEq, Repr

/-- Result shape of upsertDietaryPreferences: the DTO plus the isNew flag. -/
structure UpsertOutcome where
  data : DietaryPreferencesDTO
  isNew : Bool
deriving DecidableEq, Repr

/-- Model of JavaScript String.prototype.trim: drop whitespace from both
ends, written structurally over the character list. -/
def jsTrim (s : String) : String :=
  ⟨((s.data.dropWhile Char.isWhitespace).reverse.dropWhile
      Char.isWhitespace).reverse⟩

/-- Model of JavaScript String.prototype.toLowerCase, character by
character. -/
def jsToLower (s : String) : String :=
  ⟨s.data.map Char.toLower⟩

/-- The forbiddenIngredientsArray zod schema
(src/lib/validation/dietary-preferences.validation.ts lines 8-19): each
element is trimmed and must be 1..100 characters after trimming, the array
holds at most 100 elements, and the transform lower-cases every element. -/
def forbiddenIngredientsArray (xs : List String) : Option (List String) :=
  let trimmed := xs.map (fun s => jsTrim s)
  if xs.length ≤ 100 && trimmed.all (fun s => 1 ≤ s.length && s.length ≤ 100)
  then some (trimmed.map (fun s => jsToLower s))
  else none

/-- Ingredient names currently stored for a preferences id: the select of
forbidden_ingredients(ingredient_name) joined by dietary_preferences_id. -/
def fetchIngredients (db : DB) (prefId : Nat) : List String :=
  (db.fis.filter (fun f => f.dietary_preferences_id == prefId)).map
    (fun f => f.ingredient_name)

/-- The create_dietary_preferences stored procedure (plpgsql, so it runs as
one transaction): insert the preferences row with version defaulting to 1,
then insert one child row per ingredient, verbatim.  Fresh ids are supplied
by the caller of the model (the database generates them). -/
def create_dietary_preferences (db : DB) (p_user_id : Nat)
    (p_diet_type : DietType) (p_forbidden_ingredients : List String)
    (newPrefId fiBase now : Nat) : PrefRow × DB :=
  let prefRow : PrefRow :=
    { id := newPrefId, user_id := p_user_id, diet_type := p_diet_type,
      version := 1, created_at := now, updated_at := now }
  let newFis := p_forbidden_ingredients.enum.map
    (fun pr => ({ id := fiBase + pr.1, dietary_preferences_id := newPrefId,
                  ingredient_name := pr.2 } : FIRow))
  (prefRow, { db with prefs := db.prefs ++ [prefRow], fis := db.fis ++ newFis })

/-- Failure-injection points for the replace branch of the upsert, which the
source performs as three separate sequential store calls with no transaction
wrapper: the named step's underlying call fails, everything before it stays
committed. -/
inductive UpsertFailure
  | atRowUpdate
  | atChildDelete
  | atChildInsert
deriving DecidableEq, Repr

/-- upsertDietaryPreferences (DietaryPreferencesService): look up an existing
preferences row by user_id; if absent, run the transactional stored
procedure and re-fetch the created row with its ingredients; if present,
update the row (diet_type, version + 1, updated_at), delete all child
ingredient rows, insert the new ingredient list verbatim (skipped when the
list is empty), and return the command's ingredient array echoed back.
Returns the outcome together with the state the store was left in, which on
a replace-branch failure retains every step already committed. -/
def upsertDietaryPreferences (db : DB) (userId : Nat)
    (cmd : UpdateDietaryPreferencesCommand) (newPrefId fiBase now : Nat)
    (failAt : Option UpsertFailure) : Except SvcError UpsertOutcome × DB :=
  match db.prefs.find? (fun p => p.user_id == userId) with
  | none =>
      let res := create_dietary_preferences db userId cmd.diet_type
        cmd.forbidden_ingredients newPrefId fiBase now
      (.ok { data := { id := res.1.id, diet_type := res.1.diet_type,
                       forbidden_ingredients := fetchIngredients res.2 res.1.id,
                       version := res.1.version, created_at := res.1.created_at,
                       updated_at := res.1.updated_at },
             isNew := true }, res.2)
  | some existing =>
      if failAt == some .atRowUpdate then (.error .storageError, db)
      else
        let updatedRow : PrefRow :=
          { existing with
            diet_type := cmd.diet_type,
            version := existing.version + 1,
            updated_at := now }
        let db1 : DB :=
          { db with
            prefs := db.prefs.map (fun p =>
              if p.id == existing.id then
                { p with
                  diet_type := cmd.diet_type,
                  version := existing.version + 1,
                  updated_at := now }
              else p) }
        if failAt == some .atChildDelete then (.error .storageError, db1)
        else
          let db2 : DB :=
            { db1 with
              fis := db1.fis.filter
                (fun f => !(f.dietary_preferences_id == existing.id)) }
          if 0 < cmd.forbidden_ingredients.length &&
              failAt == some .atChildInsert then (.error .storageError, db2)
          else
            let db3 : DB :=
              { db2 with
                fis := db2.fis ++ cmd.forbidden_ingredients.enum.map
                  (fun pr => ({ id := fiBase + pr.1,
                                dietary_preferences_id := existing.id,
                                ingredient_name := pr.2 } : FIRow)) }
            (.ok { data := { id := updatedRow.id,
                             diet_type := updatedRow.diet_type,
                             forbidden_ingredients := cmd.forbidden_ingredients,
                             version := updatedRow.version,
                             created_at := updatedRow.created_at,
                             updated_at := updatedRow.updated_at },
                   isNew := false }, db3)

/-- getUserPreferences: select the preferences row of the user with its
child ingredient rows; absent row is the not-found outcome (modelled none). -/
def getUserPreferences (db : DB) (userId : Nat) : Option DietaryPreferencesDTO :=
  (db.prefs.find? (fun p => p.user_id == userId)).map (fun p =>
    { id := p.id, diet_type := p.diet_type,
      forbidden_ingredients := fetchIngredients db p.id,
      version := p.version, created_at := p.created_at,
      updated_at := p.updated_at })

/-- Pre-upsert state of claim C1: user 7 owns preferences (nodiet, version 1)
with the single stored ingredient honey. -/
def c1db : DB :=
  { recipes := [],
    prefs := [{ id := 1, user_id := 7, diet_type := .nodiet, version := 1,
                created_at := 0, updated_at := 0 }],
    fis := [{ id := 10, dietary_preferences_id := 1, ingredient_name := "honey" }] }

/-- C1: the claim asserts that a failure at any step of the replace branch
leaves the pre-upsert state fully intact.  The code violates this: the three
steps are separate sequential store calls with no transaction, so when the
child-insert call fails after the row update and the child delete have
committed, a subsequent getUserPreferences observes the new diet_type and
version together with an empty ingredient set, a partially applied state. -/
theorem upsert_replace_partial_state_visible :
    (upsertDietaryPreferences c1db 7
        { diet_type := .vegan, forbidden_ingredients := ["milk"] }
        2 20 5 (some .atChildInsert)).1 = .error .storageError ∧
    getUserPreferences (upsertDietaryPreferences c1db 7
        { diet_type := .vegan, forbidden_ingredients := ["milk"] }
        2 20 5 (some .atChildInsert)).2 7 =
      some { id := 1, diet_type := .vegan, forbidden_ingredients := [],
             version := 2, created_at := 0, updated_at := 5 } ∧
    getUserPreferences c1db 7 =
      some { id := 1, diet_type := .nodiet, forbidden_ingredients := ["honey"],
             version := 1, created_at := 0, updated_at := 0 } := by
  decide

/-- CreateRecipeCommand from src/types: title and content. -/
structure CreateRecipeCommand where
  title : String
  content : String
deriving DecidableEq, Repr

/-- UpdateRecipeCommand from src/types: title and content. -/
structure UpdateRecipeCommand where
  title : String
  content : String
deriving DecidableEq, Repr

/-- RecipeDTO: the read model, excluding user_id and deleted_at. -/
structure RecipeDTO where
  id : Nat
  title : String
  content : String
  update_counter : Nat
  created_at : Nat
  updated_at : Nat
deriving DecidableEq, Repr

/-- transformToDTO: drop user_id and deleted_at from the entity. -/
def transformToDTO (r : RecipeRow) : RecipeDTO :=
  { id := r.id, title := r.title, content := r.content,
    update_counter := r.update_counter, created_at := r.created_at,
    updated_at := r.updated_at }

/-- checkForDuplicateTitle: application-level pre-check, matching user_id and
title among rows whose deleted_at is null, optionally excluding one id.
Returns true when a duplicate exists (the service then throws
DUPLICATE_TITLE). -/
def checkForDuplicateTitle (db : DB) (userId : Nat) (title : String)
    (excludeId : Option Nat) : Bool :=
  db.recipes.any (fun r =>
    r.user_id == userId && r.title == title && r.deleted_at == none &&
    (match excludeId with
     | some e => !(r.id == e)
     | none => true))

/-- The recipes_user_id_title_key constraint of the migration: unique
(user_id, title) over ALL rows of the table, soft-deleted included.  A write
that would leave two distinct rows sharing (user_id, title) raises the
unique-violation error 23505. -/
def violatesTitleKey (db : DB) (userId : Nat) (title : String)
    (excludeId : Option Nat) : Bool :=
  db.recipes.any (fun r =>
    r.user_id == userId && r.title == title &&
    (match excludeId with
     | some e => !(r.id == e)
     | none => true))

/-- createRecipe: pre-check duplicates among non-deleted rows, then insert a
row with update_counter 1; a unique-violation from the insert is
re-classified as the same DUPLICATE_TITLE outcome. -/
def createRecipe (db : DB) (userId : Nat) (cmd : CreateRecipeCommand)
    (newId now : Nat) : Except SvcError (RecipeDTO × DB) :=
  if checkForDuplicateTitle db userId cmd.title none then
    .error .duplicateTitle
  else if violatesTitleKey db userId cmd.title none then
    .error .duplicateTitle
  else
    let row : RecipeRow :=
      { id := newId, user_id := userId, title := cmd.title,
        content := cmd.content, update_counter := 1, created_at := now,
        updated_at := now, deleted_at := none }
    .ok (transformToDTO row, { db with recipes := db.recipes ++ [row] })

/-- getRecipeById: one select whose filter conjoins id, user_id, and
deleted_at IS NULL; an absent row is the single not-found outcome. -/
def getRecipeById (db : DB) (userId recipeId : Nat) : Option RecipeDTO :=
  (db.recipes.find? (fun r =>
    r.id == recipeId && r.user_id == userId && r.deleted_at == none)).map
    transformToDTO

/-- updateRecipe: guard existence and ownership through getRecipeById, then
guard title duplication excluding the recipe's own id, then apply the update
with update_counter set to the previous value plus one; a unique-violation
from the update is re-classified as DUPLICATE_TITLE. -/
def updateRecipe (db : DB) (userId recipeId : Nat)
    (cmd : UpdateRecipeCommand) (now : Nat) :
    Except SvcError (RecipeDTO × DB) :=
  match getRecipeById db userId recipeId with
  | none => .error .notFound
  | some existing =>
      if checkForDuplicateTitle db userId cmd.title (some recipeId) then
        .error .duplicateTitle
      else if violatesTitleKey db userId cmd.title (some recipeId) then
        .error .duplicateTitle
      else
        let recipes2 := db.recipes.map (fun r =>
          if r.id == recipeId && r.user_id == userId && r.deleted_at == none
          then
            { r with
              title := cmd.title,
              content := cmd.content,
              update_counter := existing.update_counter + 1,
              updated_at := now }
          else r)
        .ok ({ existing with
               title := cmd.title,
               content := cmd.content,
               update_counter := existing.update_counter + 1,
               updated_at := now },
             { db with recipes := recipes2 })

/-- Modelled from the spec: RecipeService.deleteRecipe is invoked by the
DELETE /api/recipes/id route but its body is not among the source files, so
the soft delete follows the specification's softDelete operation: one
conditional update setting deleted_at to now on rows matching id, owner, and
deleted_at IS NULL, reporting NotFound when zero rows were affected. -/
def deleteRecipe (db : DB) (userId recipeId now : Nat) :
    Except SvcError DB :=
  if db.recipes.any (fun r =>
      r.id == recipeId && r.user_id == userId && r.deleted_at == none) then
    .ok { db with
          recipes := db.recipes.map (fun r =>
            if r.id == recipeId && r.user_id == userId && r.deleted_at == none
            then { r with deleted_at := some now }
            else r) }
  else
    .error .notFound

/-- C6: in updateRecipe, existence and ownership are always checked before
title duplication: whenever the single-predicate lookup misses (absent,
soft-deleted, or foreign-owned target), the outcome is NotFound, never
DuplicateTitle, regardless of the caller's other recipe titles. -/
theorem update_checks_existence_before_duplicate (db : DB) (u i : Nat)
    (cmd : UpdateRecipeCommand) (now : Nat)
    (h : getRecipeById db u i = none) :
    updateRecipe db u i cmd now = .error .notFound := by
  unfold updateRecipe
  rw [h]

/-- Store for the C6 witness: user 1 already owns a non-deleted recipe
titled Pasta, and the update targets the absent id 9 with that same title. -/
def c6db : DB :=
  { recipes := [{ id := 5, user_id := 1, title := "Pasta", content := "c",
                  update_counter := 1, created_at := 0, updated_at := 0,
                  deleted_at := none }] }

theorem update_checks_existence_before_duplicate_witness :
    getRecipeById c6db 1 9 = none ∧
    updateRecipe c6db 1 9 { title := "Pasta", content := "x" } 3 =
      .error .notFound :=
  ⟨by decide,
   update_checks_existence_before_duplicate c6db 1 9
     { title := "Pasta", content := "x" } 3 (by decide)⟩

/-- C7: getRecipeById evaluates id, owner, and deleted_at IS NULL as one
predicate and returns the single undifferentiated absent outcome: a store
where the id does not exist at all and a store where the id exists but is
foreign-owned or soft-deleted yield identical results. -/
theorem getById_single_undifferentiated_notFound (dbA dbB : DB) (u i : Nat)
    (h1 : ∀ r ∈ dbA.recipes, r.id ≠ i)
    (h2 : ∀ r ∈ dbB.recipes, r.id = i → r.user_id ≠ u ∨ r.deleted_at ≠ none) :
    getRecipeById dbA u i = none ∧ getRecipeById dbB u i = none ∧
    getRecipeById dbA u i = getRecipeById dbB u i := by
  have hA : getRecipeById dbA u i = none := by
    unfold getRecipeById
    rw [List.find?_eq_none.mpr, Option.map_none']
    intro r hr
    simp only [Bool.and_eq_true, beq_iff_eq, not_and]
    intro hid
    exact absurd hid.1 (h1 r hr)
  have hB : getRecipeById dbB u i = none := by
    unfold getRecipeById
    rw [List.find?_eq_none.mpr, Option.map_none']
    intro r hr
    simp only [Bool.and_eq_true, beq_iff_eq, not_and]
    intro hid
    rcases h2 r hr hid.1 with hu | hd
    · exact absurd hid.2 hu
    · intro hd2
      exact absurd hd2 hd
  exact ⟨hA, hB, hA.trans hB.symm⟩

/-- Store for the C7 witness where id 4 is wholly absent. -/
def c7dbA : DB :=
  { recipes := [{ id := 6, user_id := 1, title := "A", content := "a",
                  update_counter := 1, created_at := 0, updated_at := 0,
                  deleted_at := none }] }

/-- Store for the C7 witness where id 4 exists but belongs to user 2. -/
def c7dbB : DB :=
  { recipes := [{ id := 4, user_id := 2, title := "B", content := "b",
                  update_counter := 1, created_at := 0, updated_at := 0,
                  deleted_at := none }] }

theorem getById_single_undifferentiated_notFound_witness :
    (∀ r ∈ c7dbA.recipes, r.id ≠ 4) ∧
    (∀ r ∈ c7dbB.recipes, r.id = 4 →
      r.user_id ≠ 1 ∨ r.deleted_at ≠ none) ∧
    (getRecipeById c7dbA 1 4 = none ∧ getRecipeById c7dbB 1 4 = none ∧
     getRecipeById c7dbA 1 4 = getRecipeById c7dbB 1 4) :=
  ⟨by decide, by decide,
   getById_single_undifferentiated_notFound c7dbA c7dbB 1 4
     (by decide) (by decide)⟩

/-- C4: the soft delete is one conditional update over the conjunction of
id, owner, and deleted_at IS NULL.  Zero affected rows, whatever the reason
(absent id, foreign owner, or already deleted), is the uniform NotFound
outcome; and after one successful delete a second call on the same recipe
finds zero rows and returns NotFound, so the operation is idempotent. -/
theorem softDelete_conditional_idempotent (db : DB) (u i now : Nat) :
    ((∀ r ∈ db.recipes, ¬(r.id = i ∧ r.user_id = u ∧ r.deleted_at = none)) →
      deleteRecipe db u i now = .error .notFound) ∧
    (∀ db2, deleteRecipe db u i now = .ok db2 →
      ∀ now2, deleteRecipe db2 u i now2 = .error .notFound) := by
  constructor
  · intro h
    unfold deleteRecipe
    rw [if_neg]
    intro hc
    rw [List.any_eq_true] at hc
    obtain ⟨r, hr, hp⟩ := hc
    simp only [Bool.and_eq_true, beq_iff_eq] at hp
    exact h r hr ⟨hp.1.1, hp.1.2, hp.2⟩
  · intro db2 hdel now2
    unfold deleteRecipe at hdel
    split at hdel
    case isFalse => exact absurd hdel (by simp)
    case isTrue hc =>
      have hdb2 : db2 = { db with
          recipes := db.recipes.map (fun r =>
            if r.id == i && r.user_id == u && r.deleted_at == none
            then { r with deleted_at := some now }
            else r) } := by
        cases hdel
        rfl
      subst hdb2
      unfold deleteRecipe
      rw [if_neg]
      intro hc2
      rw [List.any_eq_true] at hc2
      obtain ⟨x, hx, hpx⟩ := hc2
      rw [List.mem_map] at hx
      obtain ⟨r, hr, rfl⟩ := hx
      by_cases hpr : (r.id == i && r.user_id == u && r.deleted_at == none)
        = true
      · rw [if_pos hpr] at hpx
        simp only [Bool.and_eq_true, beq_iff_eq] at hpx
        exact Option.some_ne_none now hpx.2
      · rw [if_neg hpr] at hpx
        exact hpr hpx

/-- Store for the C4 witness: a single live recipe of user 2 with id 3. -/
def c4db : DB :=
  { recipes := [{ id := 3, user_id := 2, title := "T", content := "c",
                  update_counter := 1, created_at := 0, updated_at := 0,
                  deleted_at := none }] }

/-- Store state after the first successful soft delete of the C4 witness. -/
def c4db2 : DB :=
  { recipes := [{ id := 3, user_id := 2, title := "T", content := "c",
                  update_counter := 1, created_at := 0, updated_at := 0,
                  deleted_at := some 9 }] }

theorem softDelete_conditional_idempotent_witness :
    deleteRecipe c4db 2 3 9 = .ok c4db2 ∧
    deleteRecipe c4db2 2 3 11 = .error .notFound :=
  ⟨by decide,
   (softDelete_conditional_idempotent c4db 2 3 9).2 c4db2 (by decide) 11⟩

/-- Boolean success test for a service outcome. -/
def exOk {ε α : Type} (e : Except ε α) : Bool :=
  match e with
  | .ok _ => true
  | .error _ => false

/-- Empty store for the C2 scenario. -/
def c2db0 : DB := {}

/-- Store after user 1 creates the recipe Pasta with id 100. -/
def c2db1 : DB :=
  match createRecipe c2db0 1 { title := "Pasta", content := "boil water" }
      100 0 with
  | .ok pr => pr.2
  | .error _ => c2db0

/-- Store after user 1 soft-deletes recipe 100. -/
def c2db2 : DB :=
  match deleteRecipe c2db1 1 100 1 with
  | .ok d => d
  | .error _ => c2db1

/-- C2 counterexample: create Pasta, soft-delete it, then create Pasta
again.  The claim says the second create succeeds because soft-deleted rows
are excluded from title-uniqueness checks; in the code only the
application-level pre-check excludes them, while the recipes_user_id_title_key
constraint of the migration covers every row, so the insert raises a unique
violation which createRecipe re-classifies as DUPLICATE_TITLE. -/
theorem softDeleted_title_not_reusable :
    exOk (createRecipe c2db0 1 { title := "Pasta", content := "boil water" }
      100 0) = true ∧
    exOk (deleteRecipe c2db1 1 100 1) = true ∧
    createRecipe c2db2 1 { title := "Pasta", content := "fresh" } 101 2 =
      .error .duplicateTitle := by
  decide

/-- C2 amended: after softDelete(O, id) succeeds, a create by the same owner
reusing the title of any recipe row that owner has (the soft-deleted one
included) fails with DuplicateTitle: soft deletion removes the row from the
application-level pre-check but not from the table-wide unique key on
(user_id, title). -/
theorem delete_then_recreate_duplicate (db : DB) (u i now : Nat)
    (r : RecipeRow) (hr : r ∈ db.recipes) (hu : r.user_id = u)
    (db2 : DB) (h2 : deleteRecipe db u i now = .ok db2)
    (c : String) (nid t2 : Nat) :
    createRecipe db2 u { title := r.title, content := c } nid t2 =
      .error .duplicateTitle := by
  unfold deleteRecipe at h2
  split at h2
  case isFalse => exact absurd h2 (by simp)
  case isTrue hc =>
    have hdb2 : db2 = { db with
        recipes := db.recipes.map (fun x =>
          if x.id == i && x.user_id == u && x.deleted_at == none
          then { x with deleted_at := some now }
          else x) } := by
      cases h2
      rfl
    subst hdb2
    have hkey : violatesTitleKey { db with
        recipes := db.recipes.map (fun x =>
          if x.id == i && x.user_id == u && x.deleted_at == none
          then { x with deleted_at := some now }
          else x) } u r.title none = true := by
      unfold violatesTitleKey
      rw [List.any_eq_true]
      refine ⟨(fun x =>
          if x.id == i && x.user_id == u && x.deleted_at == none
          then { x with deleted_at := some now }
          else x) r, List.mem_map_of_mem _ hr, ?_⟩
      simp only [hu]
      split <;> simp [hu]
    unfold createRecipe
    by_cases hpre : checkForDuplicateTitle { db with
        recipes := db.recipes.map (fun x =>
          if x.id == i && x.user_id == u && x.deleted_at == none
          then { x with deleted_at := some now }
          else x) } u r.title none = true
    · rw [if_pos hpre]
    · rw [if_neg hpre, if_pos hkey]

theorem delete_then_recreate_duplicate_witness :
    ({ id := 100, user_id := 1, title := "Pasta", content := "boil water",
       update_counter := 1, created_at := 0, updated_at := 0,
       deleted_at := none } : RecipeRow) ∈ c2db1.recipes ∧
    deleteRecipe c2db1 1 100 1 = .ok c2db2 ∧
    createRecipe c2db2 1 { title := "Pasta", content := "fresh2" } 102 3 =
      .error .duplicateTitle :=
  ⟨by decide, by decide,
   delete_then_recreate_duplicate c2db1 1 100 1
     { id := 100, user_id := 1, title := "Pasta", content := "boil water",
       update_counter := 1, created_at := 0, updated_at := 0,
       deleted_at := none }
     (by decide) rfl c2db2 (by decide) "fresh2" 102 3⟩

/-- Successful createRecipe appends exactly one row with update_counter 1
and returns its DTO. -/
theorem createRecipe_ok_shape (db : DB) (u : Nat) (cmd : CreateRecipeCommand)
    (nid now : Nat) (res : RecipeDTO × DB)
    (h : createRecipe db u cmd nid now = .ok res) :
    res.1.update_counter = 1 ∧
    res.2.recipes = db.recipes ++
      [{ id := nid, user_id := u, title := cmd.title, content := cmd.content,
         update_counter := 1, created_at := now, updated_at := now,
         deleted_at := none }] := by
  simp only [createRecipe] at h
  split at h
  · exact Except.noConfusion h
  · split at h
    · exact Except.noConfusion h
    · have hres := (Except.ok.inj h).symm
      subst hres
      exact ⟨rfl, rfl⟩

/-- Successful updateRecipe found a row through the single predicate and
rewrote exactly the matching rows, with the counter set to that row's
counter plus one. -/
theorem updateRecipe_ok_shape (db : DB) (u i : Nat)
    (cmd : UpdateRecipeCommand) (now : Nat) (res : RecipeDTO × DB)
    (h : updateRecipe db u i cmd now = .ok res) :
    ∃ r, db.recipes.find? (fun x =>
        x.id == i && x.user_id == u && x.deleted_at == none) = some r ∧
      res.1.update_counter = r.update_counter + 1 ∧
      res.2.recipes = db.recipes.map (fun x =>
        if x.id == i && x.user_id == u && x.deleted_at == none then
          { x with
            title := cmd.title,
            content := cmd.content,
            update_counter := r.update_counter + 1,
            updated_at := now }
        else x) := by
  simp only [updateRecipe, getRecipeById] at h
  cases hf : db.recipes.find? (fun x =>
      x.id == i && x.user_id == u && x.deleted_at == none) with
  | none =>
      rw [hf] at h
      exact Except.noConfusion h
  | some r =>
      rw [hf] at h
      simp only [Option.map_some'] at h
      split at h
      · exact Except.noConfusion h
      · split at h
        · exact Except.noConfusion h
        · have hres := (Except.ok.inj h).symm
          subst hres
          exact ⟨r, rfl, rfl, rfl⟩

/-- Successful deleteRecipe only stamps deleted_at on the matching rows. -/
theorem deleteRecipe_ok_shape (db : DB) (u i now : Nat) (db2 : DB)
    (h : deleteRecipe db u i now = .ok db2) :
    db2.recipes = db.recipes.map (fun x =>
      if x.id == i && x.user_id == u && x.deleted_at == none
      then { x with deleted_at := some now }
      else x) := by
  simp only [deleteRecipe] at h
  split at h
  · have hres := (Except.ok.inj h).symm
    subst hres
    rfl
  · exact Except.noConfusion h

/-- The write operations of the recipe store. -/
inductive RecipeOp
  | createOp (u : Nat) (cmd : CreateRecipeCommand) (nid now : Nat)
  | updateOp (u i : Nat) (cmd : UpdateRecipeCommand) (now : Nat)
  | deleteOp (u i now : Nat)

/-- State reached by one recipe-store write: the new store on success, the
unchanged store when the operation reports an error. -/
def recipeStep (db : DB) : RecipeOp → DB
  | .createOp u cmd nid now =>
      match createRecipe db u cmd nid now with
      | .ok res => res.2
      | .error _ => db
  | .updateOp u i cmd now =>
      match updateRecipe db u i cmd now with
      | .ok res => res.2
      | .error _ => db
  | .deleteOp u i now =>
      match deleteRecipe db u i now with
      | .ok d => d
      | .error _ => db

/-- C5: update_counter is 1 at creation; every successful update sets the
target's counter to exactly the previous value plus one (so across any
sequence of successful updates the observed values rise by one each time,
starting from 1); and no write operation ever decrements or resets the
counter of any surviving row.  Row ids are pairwise distinct, as the table's
primary key guarantees. -/
theorem recipe_update_counter_monotone (db : DB)
    (hids : (db.recipes.map (fun r => r.id)).Nodup) :
    (∀ u cmd nid now res, createRecipe db u cmd nid now = .ok res →
      res.1.update_counter = 1 ∧
      ∃ row, res.2.recipes = db.recipes ++ [row] ∧ row.update_counter = 1) ∧
    (∀ u i cmd now res, updateRecipe db u i cmd now = .ok res →
      ∃ r, r ∈ db.recipes ∧ r.id = i ∧
        res.1.update_counter = r.update_counter + 1 ∧
        ∀ r2 ∈ res.2.recipes, r2.id = i →
          r2.update_counter = r.update_counter + 1) ∧
    (∀ op r, r ∈ db.recipes →
      ∃ r2, r2 ∈ (recipeStep db op).recipes ∧ r2.id = r.id ∧
        (r2.update_counter = r.update_counter ∨
         r2.update_counter = r.update_counter + 1)) := by
  refine ⟨?_, ?_, ?_⟩
  · intro u cmd nid now res h
    obtain ⟨h1, h2⟩ := createRecipe_ok_shape db u cmd nid now res h
    exact ⟨h1, _, h2, rfl⟩
  · intro u i cmd now res h
    obtain ⟨r, hf, hcnt, hrec⟩ := updateRecipe_ok_shape db u i cmd now res h
    have hmem := List.mem_of_find?_eq_some hf
    have hpred := List.find?_some hf
    simp only [Bool.and_eq_true, beq_iff_eq] at hpred
    obtain ⟨⟨hpi, hpu⟩, hpd⟩ := hpred
    refine ⟨r, hmem, hpi, hcnt, ?_⟩
    intro r2 hr2 hid2
    rw [hrec] at hr2
    rw [List.mem_map] at hr2
    obtain ⟨r0, hr0, rfl⟩ := hr2
    by_cases hp0 : (r0.id == i && r0.user_id == u && r0.deleted_at == none)
      = true
    · simp [hp0]
    · rw [if_neg hp0] at hid2 ⊢
      have heq : r0 = r := List.inj_on_of_nodup_map hids hr0 hmem
        (show r0.id = r.id by rw [hid2, hpi])
      subst heq
      exact absurd (by simp [hpi, hpu, hpd]) hp0
  · intro op r hr
    cases op with
    | createOp u cmd nid now =>
        cases hc : createRecipe db u cmd nid now with
        | ok res =>
            obtain ⟨-, h2⟩ := createRecipe_ok_shape db u cmd nid now res hc
            refine ⟨r, ?_, rfl, Or.inl rfl⟩
            simp only [recipeStep, hc]
            rw [h2]
            exact List.mem_append_left _ hr
        | error e =>
            refine ⟨r, ?_, rfl, Or.inl rfl⟩
            simp only [recipeStep, hc]
            exact hr
    | updateOp u i cmd now =>
        cases hc : updateRecipe db u i cmd now with
        | error e =>
            refine ⟨r, ?_, rfl, Or.inl rfl⟩
            simp only [recipeStep, hc]
            exact hr
        | ok res =>
            obtain ⟨rf, hf, hcnt, hrec⟩ :=
              updateRecipe_ok_shape db u i cmd now res hc
            have hfmem := List.mem_of_find?_eq_some hf
            have hfpred := List.find?_some hf
            simp only [Bool.and_eq_true, beq_iff_eq] at hfpred
            obtain ⟨⟨hfi, hfu⟩, hfd⟩ := hfpred
            by_cases hp : (r.id == i && r.user_id == u && r.deleted_at == none)
              = true
            · have hp2 := hp
              simp only [Bool.and_eq_true, beq_iff_eq] at hp2
              have hreq : rf = r := List.inj_on_of_nodup_map hids hfmem hr
                (show rf.id = r.id by rw [hfi, hp2.1.1])
              refine ⟨{ r with
                        title := cmd.title,
                        content := cmd.content,
                        update_counter := rf.update_counter + 1,
                        updated_at := now }, ?_, rfl,
                      Or.inr (by rw [hreq])⟩
              simp only [recipeStep, hc]
              rw [hrec, List.mem_map]
              exact ⟨r, hr, by simp [hp]⟩
            · refine ⟨r, ?_, rfl, Or.inl rfl⟩
              simp only [recipeStep, hc]
              rw [hrec, List.mem_map]
              exact ⟨r, hr, by simp [hp]⟩
    | deleteOp u i now =>
        cases hc : deleteRecipe db u i now with
        | error e =>
            refine ⟨r, ?_, rfl, Or.inl rfl⟩
            simp only [recipeStep, hc]
            exact hr
        | ok d =>
            have hd := deleteRecipe_ok_shape db u i now d hc
            by_cases hp : (r.id == i && r.user_id == u && r.deleted_at == none)
              = true
            · refine ⟨{ r with deleted_at := some now }, ?_, rfl, Or.inl rfl⟩
              simp only [recipeStep, hc]
              rw [hd, List.mem_map]
              exact ⟨r, hr, by simp [hp]⟩
            · refine ⟨r, ?_, rfl, Or.inl rfl⟩
              simp only [recipeStep, hc]
              rw [hd, List.mem_map]
              exact ⟨r, hr, by simp [hp]⟩

/-- Store for the C5 witness: one live recipe, ids trivially distinct. -/
def c5db : DB :=
  { recipes := [{ id := 1, user_id := 1, title := "A", content := "a",
                  update_counter := 1, created_at := 0, updated_at := 0,
                  deleted_at := none }] }

theorem recipe_update_counter_monotone_witness :
    (c5db.recipes.map (fun r => r.id)).Nodup ∧
    (∀ u cmd nid now res, createRecipe c5db u cmd nid now = .ok res →
      res.1.update_counter = 1 ∧
      ∃ row, res.2.recipes = c5db.recipes ++ [row] ∧
        row.update_counter = 1) :=
  ⟨by decide, (recipe_update_counter_monotone c5db (by decide)).1⟩

/-- C9: the replace branch never short-circuits on equal input: whenever a
preferences row exists for the owner, upsert unconditionally rewrites it —
version becomes the stored version plus one, updated_at becomes now, the
diet type is set from the command — and reports isNew = false, whatever the
command contains (in particular when it is identical to the stored state). -/
theorem upsert_existing_never_noop (db : DB) (u : Nat)
    (cmd : UpdateDietaryPreferencesCommand) (pid fib now : Nat) (p : PrefRow)
    (hp : db.prefs.find? (fun q => q.user_id == u) = some p) :
    ∃ out, (upsertDietaryPreferences db u cmd pid fib now none).1 = .ok out ∧
      out.isNew = false ∧
      out.data.version = p.version + 1 ∧
      out.data.updated_at = now ∧
      out.data.diet_type = cmd.diet_type := by
  simp [upsertDietaryPreferences, hp]

/-- Store for the C9 witness: user 4 already stores exactly the state the
command resubmits (vegan, milk), and the upsert still bumps the version. -/
def c9db : DB :=
  { prefs := [{ id := 1, user_id := 4, diet_type := .vegan, version := 3,
                created_at := 0, updated_at := 2 }],
    fis := [{ id := 5, dietary_preferences_id := 1,
              ingredient_name := "milk" }] }

theorem upsert_existing_never_noop_witness :
    c9db.prefs.find? (fun q => q.user_id == 4) =
      some { id := 1, user_id := 4, diet_type := .vegan, version := 3,
             created_at := 0, updated_at := 2 } ∧
    (∃ out, (upsertDietaryPreferences c9db 4
        { diet_type := .vegan, forbidden_ingredients := ["milk"] }
        9 30 8 none).1 = .ok out ∧
      out.isNew = false ∧
      out.data.version = 3 + 1 ∧
      out.data.updated_at = 8 ∧
      out.data.diet_type = DietType.vegan) :=
  ⟨by decide,
   upsert_existing_never_noop c9db 4
     { diet_type := .vegan, forbidden_ingredients := ["milk"] } 9 30 8
     { id := 1, user_id := 4, diet_type := .vegan, version := 3,
       created_at := 0, updated_at := 2 } (by decide)⟩

/-- C10: on the replace branch the returned forbidden_ingredients field is
the command's array echoed verbatim (duplicates included), while on the
create branch it is re-fetched from the store after the write. -/
theorem upsert_echo_vs_refetch (db : DB) (u : Nat)
    (cmd : UpdateDietaryPreferencesCommand) (pid fib now : Nat) :
    (∀ p, db.prefs.find? (fun q => q.user_id == u) = some p →
      ∃ out, (upsertDietaryPreferences db u cmd pid fib now none).1 =
          .ok out ∧
        out.data.forbidden_ingredients = cmd.forbidden_ingredients) ∧
    (db.prefs.find? (fun q => q.user_id == u) = none →
      ∃ out, (upsertDietaryPreferences db u cmd pid fib now none).1 =
          .ok out ∧
        out.data.forbidden_ingredients =
          fetchIngredients
            (upsertDietaryPreferences db u cmd pid fib now none).2 pid) := by
  constructor
  · intro p hp
    simp [upsertDietaryPreferences, hp]
  · intro hn
    simp [upsertDietaryPreferences, hn, create_dietary_preferences]

/-- Store for the C10 witness, replace branch: user 4 has a row; the command
carries a duplicated ingredient which the result echoes verbatim. -/
def c10db : DB :=
  { prefs := [{ id := 1, user_id := 4, diet_type := .vegan, version := 1,
                created_at := 0, updated_at := 0 }] }

/-- Store for the C10 witness, create branch: no row for user 4, but a stale
child row already sits under the id the new preferences row will get, so the
re-fetched result visibly differs from the command's array. -/
def c10dbB : DB :=
  { fis := [{ id := 99, dietary_preferences_id := 9,
              ingredient_name := "stale" }] }

theorem upsert_echo_vs_refetch_witness :
    c10db.prefs.find? (fun q => q.user_id == 4) =
      some { id := 1, user_id := 4, diet_type := .vegan, version := 1,
             created_at := 0, updated_at := 0 } ∧
    (∃ out, (upsertDietaryPreferences c10db 4
        { diet_type := .nodiet, forbidden_ingredients := ["milk", "milk"] }
        2 30 5 none).1 = .ok out ∧
      out.data.forbidden_ingredients = ["milk", "milk"]) ∧
    c10dbB.prefs.find? (fun q => q.user_id == 4) = none ∧
    (∃ out, (upsertDietaryPreferences c10dbB 4
        { diet_type := .vegan, forbidden_ingredients := ["eggs"] }
        9 30 5 none).1 = .ok out ∧
      out.data.forbidden_ingredients =
        fetchIngredients (upsertDietaryPreferences c10dbB 4
          { diet_type := .vegan, forbidden_ingredients := ["eggs"] }
          9 30 5 none).2 9) :=
  ⟨by decide,
   (upsert_echo_vs_refetch c10db 4
     { diet_type := .nodiet, forbidden_ingredients := ["milk", "milk"] }
     2 30 5).1
     { id := 1, user_id := 4, diet_type := .vegan, version := 1,
       created_at := 0, updated_at := 0 } (by decide),
   by decide,
   (upsert_echo_vs_refetch c10dbB 4
     { diet_type := .vegan, forbidden_ingredients := ["eggs"] }
     9 30 5).2 (by decide)⟩

/-- C3 counterexample: the validation schema trims and lower-cases but never
collapses duplicates, and the upsert stores the list verbatim, so the
claim's example input leaves THREE stored rows (milk, milk, eggs) rather
than exactly the two ingredients milk and eggs. -/
theorem ingredient_dedup_missing :
    forbiddenIngredientsArray ["Milk", " milk ", "Eggs"] =
      some ["milk", "milk", "eggs"] ∧
    ((upsertDietaryPreferences ({} : DB) 7
        { diet_type := .vegan,
          forbidden_ingredients := ["milk", "milk", "eggs"] }
        1 10 0 none).2.fis.map (fun f => f.ingredient_name)) =
      ["milk", "milk", "eggs"] := by
  decide

/-- Rows surviving the child-delete step never match the deleted parent id
again. -/
theorem filter_not_then_filter (pid : Nat) (l : List FIRow) :
    (l.filter (fun f => !(f.dietary_preferences_id == pid))).filter
      (fun f => f.dietary_preferences_id == pid) = [] := by
  induction l with
  | nil => rfl
  | cons a t ih =>
      by_cases ha : (a.dietary_preferences_id == pid) = true
      · simp [List.filter_cons, ha, ih]
      · simp [List.filter_cons, ha, ih]

/-- Re-inserted child rows all carry the parent id, so the fetch filter
keeps every one of them. -/
theorem filter_new_rows (pid fib : Nat) (ys : List String) :
    ((ys.enum.map (fun pr => ({ id := fib + pr.1,
                                dietary_preferences_id := pid,
                                ingredient_name := pr.2 } : FIRow))).filter
      (fun f => f.dietary_preferences_id == pid)) =
    ys.enum.map (fun pr => ({ id := fib + pr.1,
                              dietary_preferences_id := pid,
                              ingredient_name := pr.2 } : FIRow)) := by
  apply List.filter_eq_self.mpr
  intro a ha
  rw [List.mem_map] at ha
  obtain ⟨pr, hpr, rfl⟩ := ha
  simp

/-- Projecting the names out of the freshly inserted child rows returns the
inserted list itself, duplicates preserved. -/
theorem map_name_new_rows (pid fib : Nat) (ys : List String) :
    (ys.enum.map (fun pr => ({ id := fib + pr.1,
                               dietary_preferences_id := pid,
                               ingredient_name := pr.2 } : FIRow))).map
      (fun f => f.ingredient_name) = ys := by
  rw [List.map_map]
  have hcomp : ((fun f : FIRow => f.ingredient_name) ∘
      (fun pr : Nat × String => ({ id := fib + pr.1,
                                   dietary_preferences_id := pid,
                                   ingredient_name := pr.2 } : FIRow))) =
      Prod.snd := by
    funext pr
    rfl
  rw [hcomp, List.enum_map_snd]

/-- C3 amended: every ingredient accepted by the validation schema is stored
trimmed and lower-cased, but duplicates within the input are NOT collapsed:
the normalized list equals the input mapped through trim-then-lowercase, and
the replace branch stores exactly that list, duplicates preserved. -/
theorem normalization_no_dedup (xs ys : List String)
    (h : forbiddenIngredientsArray xs = some ys) (dt : DietType)
    (db : DB) (u pid fib now : Nat) (p : PrefRow)
    (hp : db.prefs.find? (fun q => q.user_id == u) = some p) :
    ys = xs.map (fun s => jsToLower (jsTrim s)) ∧
    fetchIngredients
      (upsertDietaryPreferences db u
        { diet_type := dt, forbidden_ingredients := ys } pid fib now none).2
      p.id = ys := by
  constructor
  · simp only [forbiddenIngredientsArray] at h
    split at h
    · have h2 := Option.some.inj h
      rw [← h2, List.map_map]
      rfl
    · exact Option.noConfusion h
  · simp [upsertDietaryPreferences, hp, fetchIngredients,
      List.filter_append, List.map_append, filter_not_then_filter,
      filter_new_rows, map_name_new_rows]
    have hcomp : ((fun f : FIRow => f.ingredient_name) ∘
        fun pr : Nat × String => ({ id := fib + pr.1,
                                    dietary_preferences_id := p.id,
                                    ingredient_name := pr.2 } : FIRow)) =
        Prod.snd := by
      funext pr
      rfl
    rw [hcomp, List.enum_map_snd]

/-- Character-list test of whether the first list begins the second. -/
def startsWithL : List Char → List Char → Bool
  | [], _ => true
  | _ :: _, [] => false
  | a :: as, b :: bs => a == b && startsWithL as bs

/-- Character-list substring test: does the first list occur contiguously
inside the second. -/
def hasSubL (pat : List Char) : List Char → Bool
  | [] => pat.isEmpty
  | l@(_ :: cs) => startsWithL pat l || hasSubL pat cs

/-- The ilike title filter of getUserRecipes: case-insensitive substring
match when a search term is present, trivially true otherwise. -/
def titleMatches (search : Option String) (title : String) : Bool :=
  match search with
  | none => true
  | some s => hasSubL (jsToLower s).data (jsToLower title).data

/-- Row filter of the list query: owner, non-deleted, and the optional
title search. -/
def recipeListPred (userId : Nat) (search : Option String)
    (r : RecipeRow) : Bool :=
  r.user_id == userId && r.deleted_at == none &&
    titleMatches search r.title

/-- Newest-first ordering on creation time, the order('created_at',
descending) clause of the query. -/
def sortDesc (l : List RecipeRow) : List RecipeRow :=
  List.insertionSort (fun a b => b.created_at ≤ a.created_at) l

instance : IsTotal RecipeRow (fun a b => b.created_at ≤ a.created_at) :=
  ⟨fun a b => Nat.le_total b.created_at a.created_at⟩

instance : IsTrans RecipeRow (fun a b => b.created_at ≤ a.created_at) :=
  ⟨fun _ _ _ hab hbc => Nat.le_trans hbc hab⟩

/-- RecipeListQueryParams after validation: page, limit, optional search. -/
structure RecipeListQueryParams where
  page : Nat
  limit : Nat
  search : Option String
deriving DecidableEq, Repr

/-- PaginationMetadata of the list response. -/
structure PaginationMetadata where
  current_page : Nat
  total_pages : Nat
  total_count : Nat
  limit : Nat
deriving DecidableEq, Repr

/-- getUserRecipes: filter to owner and non-deleted with the optional ilike
title match, order newest-first by created_at, count the filtered rows in
the same pass, page by offset range((page-1)*limit, ... + limit - 1), and
report pagination metadata with total_pages the ceiling of count/limit. -/
def getUserRecipes (db : DB) (params : RecipeListQueryParams)
    (userId : Nat) : List RecipeDTO × PaginationMetadata :=
  let offset := (params.page - 1) * params.limit
  let filtered := db.recipes.filter (recipeListPred userId params.search)
  let sorted := sortDesc filtered
  let pageRows := (sorted.drop offset).take params.limit
  let totalCount := filtered.length
  let totalPages := (totalCount + params.limit - 1) / params.limit
  (pageRows.map transformToDTO,
   { current_page := params.page, total_pages := totalPages,
     total_count := totalCount, limit := params.limit })

/-- Leading decimal digits of a character list, as JavaScript parseInt
consumes them: the accumulator is none until the first digit is seen, and
parsing stops at the first non-digit. -/
def digitsVal : List Char → Option Nat → Option Nat
  | [], acc => acc
  | c :: cs, acc =>
      if c.isDigit
      then digitsVal cs (some ((acc.getD 0) * 10 + (c.toNat - 48)))
      else acc

/-- Model of JavaScript parseInt(s, 10): skip surrounding whitespace, take
an optional sign, then leading digits; no digit at all gives NaN (none). -/
def jsParseInt (s : String) : Option Int :=
  match (jsTrim s).data with
  | '-' :: cs => (digitsVal cs none).map (fun n => -(n : Int))
  | '+' :: cs => (digitsVal cs none).map (fun n => (n : Int))
  | cs => (digitsVal cs none).map (fun n => (n : Int))

/-- The RecipeListQueryParamsSchema zod schema
(src/lib/validation/recipe.validation.ts): page defaults to 1 and must be
at least 1; limit defaults to 20 and must lie in 1..100; search is trimmed,
empty becomes absent, and must be at most 200 characters. -/
def parseRecipeListQueryParams (page limitStr search : Option String) :
    Option RecipeListQueryParams :=
  let pageVal : Option Int :=
    match page with
    | none => some 1
    | some s => jsParseInt s
  let limitVal : Option Int :=
    match limitStr with
    | none => some 20
    | some s => jsParseInt s
  match pageVal, limitVal with
  | some p, some l =>
      if 1 ≤ p ∧ 1 ≤ l ∧ l ≤ 100 then
        let searchVal : Option String :=
          match search with
          | none => none
          | some s => if (jsTrim s).length = 0 then none else some (jsTrim s)
        match searchVal with
        | some t =>
            if t.length ≤ 200 then
              some { page := p.toNat, limit := l.toNat, search := some t }
            else none
        | none => some { page := p.toNat, limit := l.toNat, search := none }
      else none
  | _, _ => none

/-- C8: every returned recipe is one of the owner's non-deleted rows passing
the optional case-insensitive title search; at most limit rows come back,
ordered newest-first by creation time; the metadata echoes the page and the
effective limit, counts all matching rows, and total_pages is the ceiling of
total_count over limit (characterized as the least k with count ≤ k*limit);
and the validated query parameters default page to 1 and limit to 20 with
limit confined to 1..100. -/
theorem list_pagination_correct :
    (∀ db params u,
      (∀ d ∈ (getUserRecipes db params u).1, ∃ r ∈ db.recipes,
        recipeListPred u params.search r = true ∧ transformToDTO r = d) ∧
      (getUserRecipes db params u).1.length ≤ params.limit ∧
      List.Pairwise (fun a b : RecipeDTO => b.created_at ≤ a.created_at)
        (getUserRecipes db params u).1 ∧
      (getUserRecipes db params u).2.current_page = params.page ∧
      (getUserRecipes db params u).2.limit = params.limit ∧
      (getUserRecipes db params u).2.total_count =
        (db.recipes.filter (recipeListPred u params.search)).length ∧
      (1 ≤ params.limit → ∀ k,
        ((getUserRecipes db params u).2.total_count ≤ k * params.limit ↔
         (getUserRecipes db params u).2.total_pages ≤ k))) ∧
    (∀ ps ls ss q, parseRecipeListQueryParams ps ls ss = some q →
      1 ≤ q.page ∧ 1 ≤ q.limit ∧ q.limit ≤ 100 ∧
      (ls = none → q.limit = 20) ∧ (ps = none → q.page = 1)) := by
  constructor
  · intro db params u
    refine ⟨?_, ?_, ?_, rfl, rfl, rfl, ?_⟩
    · intro d hd
      simp only [getUserRecipes] at hd
      rw [List.mem_map] at hd
      obtain ⟨r, hr, rfl⟩ := hd
      have h1 : r ∈ sortDesc
          (db.recipes.filter (recipeListPred u params.search)) :=
        List.drop_subset _ _ (List.take_subset _ _ hr)
      have h2 : r ∈ db.recipes.filter (recipeListPred u params.search) :=
        (List.perm_insertionSort _ _).subset h1
      rw [List.mem_filter] at h2
      exact ⟨r, h2.1, h2.2, rfl⟩
    · simp only [getUserRecipes]
      rw [List.length_map]
      exact List.length_take_le _ _
    · simp only [getUserRecipes]
      rw [List.pairwise_map]
      have hs : List.Pairwise (fun a b : RecipeRow =>
          b.created_at ≤ a.created_at) (sortDesc
            (db.recipes.filter (recipeListPred u params.search))) :=
        List.sorted_insertionSort _ _
      have hsub : (((sortDesc (db.recipes.filter
            (recipeListPred u params.search))).drop
              ((params.page - 1) * params.limit)).take params.limit).Sublist
          (sortDesc (db.recipes.filter (recipeListPred u params.search))) :=
        (List.take_sublist _ _).trans (List.drop_sublist _ _)
      exact hs.sublist hsub
    · intro hl k
      simp only [getUserRecipes]
      rw [Nat.div_le_iff_le_mul_add_pred hl]
      generalize (db.recipes.filter (recipeListPred u params.search)).length
        = tc
      constructor
      · intro h
        calc tc + params.limit - 1
            ≤ k * params.limit + params.limit - 1 := by omega
          _ = params.limit * k + (params.limit - 1) := by
              rw [Nat.mul_comm]
              omega
      · intro h
        have h2 : tc + params.limit - 1 ≤ k * params.limit +
            (params.limit - 1) := by
          rw [Nat.mul_comm] at h
          exact h
        omega
  · intro ps ls ss q hq
    simp only [parseRecipeListQueryParams] at hq
    split at hq
    case h_2 => exact Option.noConfusion hq
    case h_1 p l hpeq hleq =>
      split at hq
      case isFalse => exact Option.noConfusion hq
      case isTrue hcond =>
        have hq2 : q.page = p.toNat ∧ q.limit = l.toNat := by
          split at hq
          · split at hq
            · have hqe := (Option.some.inj hq).symm
              subst hqe
              exact ⟨rfl, rfl⟩
            · exact Option.noConfusion hq
          · have hqe := (Option.some.inj hq).symm
            subst hqe
            exact ⟨rfl, rfl⟩
        obtain ⟨hqp, hql⟩ := hq2
        refine ⟨?_, ?_, ?_, ?_, ?_⟩
        · rw [hqp]
          omega
        · rw [hql]
          omega
        · rw [hql]
          omega
        · intro hls
          subst hls
          simp at hleq
          rw [hql]
          omega
        · intro hps
          subst hps
          simp at hpeq
          rw [hqp]
          omega

/-- Store for the C8 witness: two live recipes of user 1 and one of user 2,
with distinct creation times. -/
def c8db : DB :=
  { recipes := [
      { id := 1, user_id := 1, title := "Apple Pie", content := "a",
        update_counter := 1, created_at := 5, updated_at := 5,
        deleted_at := none },
      { id := 2, user_id := 1, title := "Banana", content := "b",
        update_counter := 1, created_at := 9, updated_at := 9,
        deleted_at := none },
      { id := 3, user_id := 2, title := "apple", content := "c",
        update_counter := 1, created_at := 7, updated_at := 7,
        deleted_at := none }] }

/-- Query parameters for the C8 witness. -/
def c8params : RecipeListQueryParams :=
  { page := 1, limit := 20, search := some "apple" }

theorem list_pagination_correct_witness :
    (1 ≤ c8params.limit ∧
      ((getUserRecipes c8db c8params 1).2.total_count ≤ 1 * c8params.limit ↔
       (getUserRecipes c8db c8params 1).2.total_pages ≤ 1)) ∧
    (parseRecipeListQueryParams none none none =
        some { page := 1, limit := 20, search := none } ∧
      1 ≤ ({ page := 1, limit := 20, search := none } :
          RecipeListQueryParams).page ∧
      ({ page := 1, limit := 20, search := none } :
          RecipeListQueryParams).limit = 20) :=
  ⟨⟨by decide,
    (list_pagination_correct.1 c8db c8params 1).2.2.2.2.2.2 (by decide) 1⟩,
   ⟨by decide,
    (list_pagination_correct.2 none none none
       { page := 1, limit := 20, search := none } (by decide)).1,
    (list_pagination_correct.2 none none none
       { page := 1, limit := 20, search := none } (by decide)).2.2.2.1
      rfl⟩⟩

/-- Store for the C3 witness: user 7 has a preferences row (id 2) with a
stored ingredient that the upsert will replace. -/
def c3db : DB :=
  { prefs := [{ id := 2, user_id := 7, diet_type := .nodiet, version := 1,
                created_at := 0, updated_at := 0 }],
    fis := [{ id := 11, dietary_preferences_id := 2,
              ingredient_name := "honey" }] }

theorem normalization_no_dedup_witness :
    forbiddenIngredientsArray ["Milk", " milk ", "Eggs"] =
      some ["milk", "milk", "eggs"] ∧
    c3db.prefs.find? (fun q => q.user_id == 7) =
      some { id := 2, user_id := 7, diet_type := .nodiet, version := 1,
             created_at := 0, updated_at := 0 } ∧
    (["milk", "milk", "eggs"] =
        (["Milk", " milk ", "Eggs"].map (fun s => jsToLower (jsTrim s))) ∧
      fetchIngredients
        (upsertDietaryPreferences c3db 7
          { diet_type := .vegan,
            forbidden_ingredients := ["milk", "milk", "eggs"] }
          3 40 5 none).2 2 = ["milk", "milk", "eggs"]) :=
  ⟨by decide, by decide,
   normalization_no_dedup ["Milk", " milk ", "Eggs"]
     ["milk", "milk", "eggs"] (by decide) .vegan c3db 7 3 40 5
     { id := 2, user_id := 7, diet_type := .nodiet, version := 1,
       created_at := 0, updated_at := 0 } (by decide)⟩
